import Mathlib

/-!
Shallow embedding of `src/controllers/postController.js` (journal-submission
backend). The document store is modelled as lists of records; each request
handler is a pure function from the relevant store slices and request fields
to a response (and the updated store slices). Mongo/Mongoose operations are
modelled as follows:

* `Model.find(q)`        — `List.filter` with the query predicate;
* `Model.findById(id)` / `Model.findOne(q)` — `List.find?` (first match);
* `Model.findByIdAndDelete(id)` — delete the first record with that id
  (`List.eraseP`), returning the deleted record when present;
* `Model.findOneAndUpdate(q, u)` — update the first matching record;
* `doc.save()` after mutating a fetched document — replace the record with
  the same id in the store.

Responses are the JSON envelope the controller builds with `res.status(s)
.json({...})`: a status code, the `success` and `message` fields, and the
optional `data`, `error` and `filename` fields (the last one is produced
only by `createZip`).
-/

namespace JSBackend

/-- One element of `Article.authors`: `{name, email, affiliation}`. -/
structure Author where
  name : String
  email : String
  affiliation : String
deriving DecidableEq, Repr

/-- One element of `Article.reviewers`: a reviewer's identity plus their
review state and comments. -/
structure ReviewerEntry where
  name : String
  email : String
  reviewState : String
  comments : String
deriving DecidableEq, Repr

/-- An `Article` document (`articleModel`). -/
structure Article where
  id : String
  userId : String
  title : String
  abstract : String
  keywords : List String
  file : String
  authors : List Author
  journalId : String
  reviewers : List ReviewerEntry
  createdAt : Nat
deriving DecidableEq, Repr

/-- A `Journal` document (`journalModel`); `editorId` is an optional
reference to an `Auth` record (`none` models null/unset). -/
structure Journal where
  id : String
  title : String
  description : String
  editorId : Option String
deriving DecidableEq, Repr

/-- A `Reviewer` document (`reviewerModel`). -/
structure Reviewer where
  id : String
  firstName : String
  lastName : String
  email : String
  affiliation : String
deriving DecidableEq, Repr

/-- An `Auth` identity document (`authModel`). -/
structure Auth where
  id : String
  firstName : String
  middleName : String
  lastName : String
  userName : String
  email : String
  phoneNumber : String
  password : String
  gender : String
  isEditor : Bool
  isReviewer : Bool
deriving DecidableEq, Repr

/-- The projection of an `Article` produced by
`Article.find(...).select('title createdAt file reviewers')` in
`getReviewArticles` (plus the implicit `_id`). -/
structure RArticleView where
  id : String
  title : String
  createdAt : Nat
  file : String
  reviewers : List ReviewerEntry
deriving DecidableEq, Repr

/-- The projection of the editor's `Auth` record produced by
`.populate('editorId', 'firstName lastName email')` in `getJournalList`
(plus the implicit `_id`). -/
structure EditorView where
  id : String
  firstName : String
  lastName : String
  email : String
deriving DecidableEq, Repr

/-- One element of `getJournalList`'s response data:
`{ ...journal.toObject(), editor: journal.editorId,
editorId: journal.editorId ? journal.editorId._id : null }` after the
populate (so `editor` is the populated record or null, and `editorId` is
normalized back to the raw reference or null). -/
structure JournalView where
  id : String
  title : String
  description : String
  editor : Option EditorView
  editorId : Option String
deriving DecidableEq, Repr

/-- The `data` payloads the handlers put in the envelope. -/
inductive JData where
  | article : Article → JData
  | articles : List Article → JData
  | reviewArticles : List RArticleView → JData
  | reviewer : Reviewer → JData
  | reviewers : List Reviewer → JData
  | journal : Journal → JData
  | journalViews : List JournalView → JData
  | credentials : String → String → JData
deriving DecidableEq, Repr

/-- The JSON envelope a handler sends with `res.status(status).json({...})`.
`success` and `message` are always present; `data`, `error` and `filename`
are the optional extra keys (a `none` field means the key is absent from
the JSON object). Only `createZip`'s success response carries `filename`. -/
structure Resp where
  status : Nat
  success : Bool
  message : String
  data : Option JData
  error : Option String
  filename : Option String
deriving DecidableEq, Repr

/-- Build an envelope with only `success` and `message`. -/
def mkResp (status : Nat) (success : Bool) (message : String) : Resp :=
  ⟨status, success, message, none, none, none⟩

/-- Build an envelope carrying a `data` payload. -/
def mkRespData (status : Nat) (success : Bool) (message : String)
    (d : JData) : Resp :=
  ⟨status, success, message, some d, none, none⟩

/-- Build an envelope carrying an `error` payload (a `catch` branch). -/
def mkRespErr (status : Nat) (message : String) (e : String) : Resp :=
  ⟨status, false, message, none, some e, none⟩

/-!  ## getArticle (lines 49-60)

```js
const articles = await Article.find({ userId: req.user._id });
const otherArticles = await Article.find({ 'authors.email': req.user.email });
if (articles.length === 0 && otherArticles.length === 0) {
    return res.status(404).json({ success: false, message: "You didn't submit any journal article" });
}
res.status(200).json({ success: true, message: "...", data:
  articles.concat(otherArticles.filter(item2 => !articles.some(item1 => item1.id === item2.id))) });
```
-/

/-- `getArticle`: list the articles visible to the authenticated user
(`uid` is `req.user._id`, `uemail` is `req.user.email`), over the article
store. -/
def getArticle (store : List Article) (uid uemail : String) : Resp :=
  let articles := store.filter (fun a => a.userId == uid)
  let otherArticles :=
    store.filter (fun a => a.authors.any (fun au => au.email == uemail))
  if articles.length = 0 ∧ otherArticles.length = 0 then
    mkResp 404 false "You didn't submit any journal article"
  else
    mkRespData 200 true "Journal Articles data retrieved successfully"
      (.articles (articles ++ otherArticles.filter
        (fun item2 => !(articles.any (fun item1 => item1.id == item2.id)))))

/-- The visibility condition of claim C1: the user owns the article or is
listed among its authors' emails. -/
def visibleTo (a : Article) (uid uemail : String) : Prop :=
  a.userId = uid ∨ ∃ au ∈ a.authors, au.email = uemail

instance (a : Article) (uid uemail : String) :
    Decidable (visibleTo a uid uemail) := by
  unfold visibleTo; infer_instance

/-!  ## updateReview (lines 187-200)

```js
const article = await Article.findById(req.body._id);
if (!article) { return res.status(404).json({ success: false, message: "Journal article not found" }); }
const reviewerIndex = article.reviewers.findIndex(reviewer => reviewer.email === req.user.email);
article.reviewers[reviewerIndex] = req.body.reviewers[0];
await article.save();
res.status(200).json({ success: true, message: "Journal article updated successfully" });
```
-/

/-- `Array.prototype.findIndex`: the index of the first element satisfying
`p` (`none` models JavaScript's `-1`). -/
def jsFindIndex (p : α → Bool) : List α → Option Nat
  | [] => none
  | x :: xs => if p x then some 0 else (jsFindIndex p xs).map (· + 1)

/-- The effect of `article.reviewers[reviewerIndex] = patch` on the array's
index sequence: replace the entry at the found index; when `findIndex`
returned `-1`, `arr[-1] = patch` only adds a non-index property, so the
sequence of array elements that is persisted is unchanged. -/
def jsReplaceAtFound (p : α → Bool) (patch : α) (l : List α) : List α :=
  match jsFindIndex p l with
  | some i => l.set i patch
  | none => l

/-- `doc.save()` on a document fetched from the store: the record with the
document's id is replaced by the mutated document. -/
def saveArticle (store : List Article) (a : Article) : List Article :=
  store.map (fun b => if b.id == a.id then a else b)

/-- `updateReview`: `aid` is `req.body._id`, `uemail` is `req.user.email`,
`patch` is `req.body.reviewers[0]`. Returns the response and the article
store after the handler runs. -/
def updateReview (store : List Article) (aid uemail : String)
    (patch : ReviewerEntry) : Resp × List Article :=
  match store.find? (fun a => a.id == aid) with
  | none => (mkResp 404 false "Journal article not found", store)
  | some article =>
    let newReviewers :=
      jsReplaceAtFound (fun r => r.email == uemail) patch article.reviewers
    let article' := { article with reviewers := newReviewers }
    (mkResp 200 true "Journal article updated successfully",
     saveArticle store article')

/-!  ## deleteJournal (lines 85-96)

```js
const journalData = await Journal.findByIdAndDelete(req.params.journalId);
if (!journalData) { return res.status(404).json({ success: false, message: "Journal not found" }); }
if (journalData.editorId) await Auth.findByIdAndDelete(journalData.editorId);
res.status(200).json({ success: true, message: "Journal deleted successfully" });
```
-/

/-- `deleteJournal`: `jid` is `req.params.journalId`. Returns the response
together with the journal and auth stores after the handler runs. -/
def deleteJournal (journals : List Journal) (auths : List Auth)
    (jid : String) : Resp × List Journal × List Auth :=
  match journals.find? (fun j => j.id == jid) with
  | none => (mkResp 404 false "Journal not found", journals, auths)
  | some journalData =>
    let journals' := journals.eraseP (fun j => j.id == jid)
    let auths' := match journalData.editorId with
      | some e => auths.eraseP (fun u => u.id == e)
      | none => auths
    (mkResp 200 true "Journal deleted successfully", journals', auths')

/-!  ## getReviewArticles (lines 240-254)

```js
const articles = await Article.find({ 'reviewers.email': req.user.email }).select('title createdAt file reviewers');
if (articles.length === 0) { return res.status(404).json({ success: false, message: "No review articles found" }); }
const filteredArticles = articles.map(article => ({
    ...article.toObject(),
    reviewers: article.reviewers.filter(reviewer => reviewer.email === req.user.email)
}));
```
-/

/-- The `.select('title createdAt file reviewers')` projection, with the
`reviewers` override applied by the spread in `getReviewArticles`. -/
def projectReview (a : Article) (uemail : String) : RArticleView :=
  { id := a.id, title := a.title, createdAt := a.createdAt, file := a.file,
    reviewers := a.reviewers.filter (fun r => r.email == uemail) }

/-- `getReviewArticles`: `uemail` is `req.user.email`. -/
def getReviewArticles (store : List Article) (uemail : String) : Resp :=
  let articles :=
    store.filter (fun a => a.reviewers.any (fun r => r.email == uemail))
  if articles.length = 0 then
    mkResp 404 false "No review articles found"
  else
    mkRespData 200 true "Journal Articles data retrieved successfully"
      (.reviewArticles (articles.map (fun a => projectReview a uemail)))

/-!  ## deleteReviewer (lines 256-267)

```js
const reviewerData = await Reviewer.findByIdAndDelete(req.params.reviewerId);
if (!reviewerData) { return res.status(404).json({ success: false, message: "Reviewer not found" }); }
await Auth.findOneAndUpdate({ email: reviewerData.email }, { $set: { isReviewer: false } }, { new: true });
res.status(200).json({ success: true, message: "Reviewer deleted successfully" });
```
-/

/-- `Auth.findOneAndUpdate({email}, {$set: {isReviewer: b}})`: update the
`isReviewer` flag of the first auth record with the given email; a no-op
when no record matches. -/
def setIsReviewerFirst (email : String) (b : Bool) : List Auth → List Auth
  | [] => []
  | u :: rest =>
    if u.email == email then { u with isReviewer := b } :: rest
    else u :: setIsReviewerFirst email b rest

/-- `deleteReviewer`: `rid` is `req.params.reviewerId`. Returns the response
together with the reviewer and auth stores after the handler runs. -/
def deleteReviewer (reviewers : List Reviewer) (auths : List Auth)
    (rid : String) : Resp × List Reviewer × List Auth :=
  match reviewers.find? (fun r => r.id == rid) with
  | none => (mkResp 404 false "Reviewer not found", reviewers, auths)
  | some reviewerData =>
    let reviewers' := reviewers.eraseP (fun r => r.id == rid)
    let auths' := setIsReviewerFirst reviewerData.email false auths
    (mkResp 200 true "Reviewer deleted successfully", reviewers', auths')

/-!  ## removeEditor (lines 322-334)

```js
const journal = await Journal.findById(req.params.journalId);
if (!journal) { return res.status(404).json({ success: false, message: "Journal not found" }); }
await Auth.findByIdAndDelete(journal.editorId);
await Journal.findByIdAndUpdate(req.params.journalId, { editorId: null }, { new: true });
res.status(200).json({ success: true, message: "Editor removed successfully" });
```

When `journal.editorId` is null/unset, `Auth.findByIdAndDelete(null)` issues
a `{_id: null}` query (the BSON layer serializes a missing/`undefined` id as
null), which matches no document, so nothing is deleted.
-/

/-- `Journal.findByIdAndUpdate(jid, {editorId: e})`: set the `editorId`
field of the first journal with the given id; a no-op when none matches. -/
def setEditorIdFirst (jid : String) (e : Option String) :
    List Journal → List Journal
  | [] => []
  | j :: rest =>
    if j.id == jid then { j with editorId := e } :: rest
    else j :: setEditorIdFirst jid e rest

/-- `removeEditor`: `jid` is `req.params.journalId`. Returns the response
together with the journal and auth stores after the handler runs. -/
def removeEditor (journals : List Journal) (auths : List Auth)
    (jid : String) : Resp × List Journal × List Auth :=
  match journals.find? (fun j => j.id == jid) with
  | none => (mkResp 404 false "Journal not found", journals, auths)
  | some journal =>
    let auths' := match journal.editorId with
      | some e => auths.eraseP (fun u => u.id == e)
      | none => auths
    let journals' := setEditorIdFirst jid none journals
    (mkResp 200 true "Editor removed successfully", journals', auths')

/-!  ## addEditor (lines 291-320): credential generation

```js
const password = Math.random().toString(36).toUpperCase().slice(-10);
const userName = req.body.firstName.toLowerCase() + Math.floor(Math.random() * 1000);
```

`Math.random()` yields a double `k / 2^53` with `0 ≤ k < 2^53`; we model the
random source by the numerator `k`. `Number.prototype.toString(36)` on a
non-decimal radix is implementation-approximated per ECMA-262; for these
dyadic values the expansion in base 36 terminates (within 27 digits, since
`36^27 = 2^54·3^54`), and we model the exact terminating expansion, which
agrees with the engines on the values used below.
-/

/-- The base-36 digit characters JavaScript uses (`0-9` then lowercase
`a-z`). -/
def digitChar36 (d : Nat) : Char :=
  if d < 10 then Char.ofNat (48 + d) else Char.ofNat (87 + d)

/-- The base-36 fractional digits of `r / 2^53`, most significant first,
stopping when the remainder reaches 0 (so no trailing zero digits). -/
def base36FracDigits : Nat → Nat → List Nat
  | 0, _ => []
  | fuel + 1, r =>
    if r = 0 then []
    else (r * 36 / 2 ^ 53) :: base36FracDigits fuel (r * 36 % 2 ^ 53)

/-- `(k / 2^53).toString(36)`: `"0"` for zero, otherwise `"0."` followed by
the base-36 fractional digits. -/
def jsToString36 (k : Nat) : String :=
  if k = 0 then "0"
  else "0." ++ String.mk ((base36FracDigits 27 k).map digitChar36)

/-- `String.prototype.toUpperCase` (per-character uppercasing; these strings
are ASCII). -/
def jsToUpperCase (s : String) : String :=
  String.mk (s.data.map Char.toUpper)

/-- `String.prototype.toLowerCase` (per-character lowercasing; these strings
are ASCII). -/
def jsToLowerCase (s : String) : String :=
  String.mk (s.data.map Char.toLower)

/-- `s.slice(-n)`: the last `n` characters of `s` (the whole string when it
is shorter than `n`). -/
def jsSliceNeg (n : Nat) (s : String) : String :=
  String.mk (s.data.drop (s.data.length - n))

/-- `Math.random().toString(36).toUpperCase().slice(-10)`, as a function of
the random numerator `k` (the drawn double is `k / 2^53`). -/
def genPassword (k : Nat) : String :=
  jsSliceNeg 10 (jsToUpperCase (jsToString36 k))

/-- `req.body.firstName.toLowerCase() + Math.floor(Math.random() * 1000)`,
as a function of the random numerator `k` of the second draw. -/
def genUserName (firstName : String) (k : Nat) : String :=
  jsToLowerCase firstName ++ toString (k * 1000 / 2 ^ 53)

/-!  ## addEditor (lines 291-320): the handler

```js
const user = await Auth.findOne({ email: req.body.email });
if (user) { return res.status(400).json({ success: false, message: "Editor already exists" }); }
const userPhone = await Auth.findOne({ phoneNumber: req.body.phoneNumber });
if (userPhone) { return res.status(400).json({ success: false, message: "Phone number already exists" }); }
... generate password/userName, save new Auth with isEditor: true,
Journal.findByIdAndUpdate(req.body.journalId, { editorId: editor._id });
res.status(201).json({ success: true, message: "Editor added successfully", data: { password, userName } });
```
-/

/-- The request body fields `addEditor` reads. -/
structure EditorReq where
  journalId : String
  firstName : String
  middleName : String
  lastName : String
  email : String
  phoneNumber : String
  gender : String
deriving DecidableEq, Repr

/-- `addEditor`: `freshId` is the `_id` Mongoose mints for the new document,
`kPass` and `kName` are the numerators of the two `Math.random()` draws.
Returns the response together with the auth and journal stores after the
handler runs. -/
def addEditor (auths : List Auth) (journals : List Journal)
    (body : EditorReq) (freshId : String) (kPass kName : Nat) :
    Resp × List Auth × List Journal :=
  match auths.find? (fun u => u.email == body.email) with
  | some _ => (mkResp 400 false "Editor already exists", auths, journals)
  | none =>
    match auths.find? (fun u => u.phoneNumber == body.phoneNumber) with
    | some _ =>
      (mkResp 400 false "Phone number already exists", auths, journals)
    | none =>
      let password := genPassword kPass
      let userName := genUserName body.firstName kName
      let editor : Auth :=
        { id := freshId, firstName := body.firstName,
          middleName := body.middleName, lastName := body.lastName,
          userName := userName, email := body.email,
          phoneNumber := body.phoneNumber, password := password,
          gender := body.gender, isEditor := true, isReviewer := false }
      let auths' := auths ++ [editor]
      let journals' := setEditorIdFirst body.journalId (some freshId) journals
      (mkRespData 201 true "Editor added successfully"
        (.credentials password userName), auths', journals')

/-!  ## createZip (lines 269-289)

```js
const files = req.body.files;
files.forEach(file => { zip.file(file, fs.readFileSync(`public/journals/upload/${file}`)); });
const filename = new Date().getTime();
zip.generateNodeStream(...).pipe(fs.createWriteStream(`public/journals/zip/${filename}.zip`))
  .on('finish', function () {
      res.status(200).json({ success: true, message: "Zip file created successfully", filename: `${filename}.zip` });
  });
setTimeout(() => { fs.unlinkSync(`public/journals/zip/${filename}.zip`); }, 60000);
```

`readFileSync` throws when a named file is absent from the upload
directory; the `catch` converts that into the 404 envelope. On success the
response carries the archive name under the key `filename` (there is no
`data` key). `now` models `new Date().getTime()`; the deferred deletion
timer does not affect the response.
-/

/-- `createZip`: `files` is `req.body.files`; `uploadDisk f = true` models
that `public/journals/upload/f` exists and is readable. -/
def createZip (files : List String) (uploadDisk : String → Bool)
    (now : Nat) : Resp :=
  if files.all (fun f => uploadDisk f) then
    ⟨200, true, "Zip file created successfully", none, none,
      some (toString now ++ ".zip")⟩
  else
    mkRespErr 404 "Zip file creation failed" "ENOENT"

/-!  ## addArticle (lines 25-41)

```js
try {
    const article = new Article({ userId, title, abstract,
        keywords: JSON.parse(req.body.keywords), file: req.file.filename,
        authors: JSON.parse(req.body.authors), journalId });
    const responseData = await article.save();
    res.status(201).json({ success: true, message: "Article submitted successfully", data: responseData });
} catch (error) {
    res.status(404).json({ success: false, message: "Article submission failed", error: error });
}
```

Both `JSON.parse` calls (keywords first, then authors) and `article.save()`
run inside the `try`; a throw from any of them is injected here as an
`Except` outcome and lands in the 404 catch envelope.
-/

/-- `addArticle`: `parseKeywords` and `parseAuthors` are the outcomes of
the two `JSON.parse` calls, `saveRes` of `article.save()` (the saved
document on success). -/
def addArticle (parseKeywords : Except String (List String))
    (parseAuthors : Except String (List Author))
    (saveRes : Except String Article) : Resp :=
  match parseKeywords with
  | .error e => mkRespErr 404 "Article submission failed" e
  | .ok _ =>
    match parseAuthors with
    | .error e => mkRespErr 404 "Article submission failed" e
    | .ok _ =>
      match saveRes with
      | .error e => mkRespErr 404 "Article submission failed" e
      | .ok responseData =>
        mkRespData 201 true "Article submitted successfully"
          (.article responseData)

/-!  ## addJournal (lines 72-83)

```js
const journal = new Journal({ title: req.body.title, description: req.body.description });
const responseData = await journal.save();
res.status(201).json({ success: true, message: "Journal added successfully", data: responseData });
```
-/

/-- `addJournal`: `saveRes` is the outcome of `journal.save()` inside the
`try` (the saved document on success). -/
def addJournal (saveRes : Except String Journal) : Resp :=
  match saveRes with
  | .error e => mkRespErr 404 "Journal addition failed" e
  | .ok responseData =>
    mkRespData 201 true "Journal added successfully" (.journal responseData)

/-!  ## getJournalList (lines 105-112)

```js
const journalData = await Journal.find().populate('editorId', 'firstName lastName email');
res.status(200).json({ success: true, message: "Journal data retrieved successfully",
  data: journalData.map(journal => ({ ...journal.toObject(), editor: journal.editorId,
    editorId: journal.editorId ? journal.editorId._id : null })) });
```

After the populate, `journal.editorId` holds the referenced auth document
(projected to firstName/lastName/email plus `_id`) or null when the
reference is unset or dangling.
-/

/-- `getJournalList`: list all journals with the editor reference
expanded. -/
def getJournalList (journals : List Journal) (auths : List Auth) : Resp :=
  mkRespData 200 true "Journal data retrieved successfully"
    (.journalViews (journals.map (fun journal =>
      let populated := journal.editorId.bind (fun e =>
        (auths.find? (fun u => u.id == e)).map (fun u =>
          EditorView.mk u.id u.firstName u.lastName u.email))
      { id := journal.id, title := journal.title,
        description := journal.description, editor := populated,
        editorId := populated.map (fun u => u.id) })))

/-!  ## getArticleList (lines 156-166)

```js
const articles = await Article.find({ journalId: req.params.journalId });
if (articles.length === 0) { return res.status(404).json({ success: false, message: "No journal articles found" }); }
res.status(200).json({ success: true, message: "Journal Articles data retrieved successfully", data: articles });
```
-/

/-- `getArticleList`: `journalId` is `req.params.journalId`. -/
def getArticleList (store : List Article) (journalId : String) : Resp :=
  let articles := store.filter (fun a => a.journalId == journalId)
  if articles.length = 0 then
    mkResp 404 false "No journal articles found"
  else
    mkRespData 200 true "Journal Articles data retrieved successfully"
      (.articles articles)

/-!  ## updateArticle (lines 168-178)

```js
const article = await Article.findByIdAndUpdate(req.body._id, req.body, { new: true });
if (!article) { return res.status(404).json({ success: false, message: "Journal article not found" }); }
res.status(200).json({ success: true, message: "Journal article updated successfully", data: article });
```
-/

/-- `Article.findByIdAndUpdate(body._id, body)`: replace the first article
with the body's id by the body document; a no-op when none matches. -/
def updateArticleFirst (body : Article) : List Article → List Article
  | [] => []
  | a :: rest =>
    if a.id == body.id then body :: rest
    else a :: updateArticleFirst body rest

/-- `updateArticle`: `body` is the request body, `body.id` its `_id` field;
with `{ new: true }` the updated document is returned as `data`. -/
def updateArticle (store : List Article) (body : Article) :
    Resp × List Article :=
  match store.find? (fun a => a.id == body.id) with
  | none => (mkResp 404 false "Journal article not found", store)
  | some _ =>
    (mkRespData 200 true "Journal article updated successfully"
      (.article body), updateArticleFirst body store)

/-!  ## addBulkReviewer (lines 222-229)

```js
const responseData = await Reviewer.insertMany(req.body);
res.status(201).json({ success: true, message: "Reviewers added successfully", data: responseData });
```
-/

/-- `addBulkReviewer`: `insertRes` is the outcome of
`Reviewer.insertMany(req.body)` inside the `try` (the inserted documents
on success). -/
def addBulkReviewer (insertRes : Except String (List Reviewer)) : Resp :=
  match insertRes with
  | .error e => mkRespErr 404 "Reviewers addition failed" e
  | .ok responseData =>
    mkRespData 201 true "Reviewers added successfully"
      (.reviewers responseData)

/-!  ## getReviewerList (lines 231-238)

```js
const reviewerData = await Reviewer.find();
res.status(200).json({ success: true, message: "Reviewer data retrieved successfully", data: reviewerData });
```
-/

/-- `getReviewerList`: list all reviewers. -/
def getReviewerList (reviewers : List Reviewer) : Resp :=
  mkRespData 200 true "Reviewer data retrieved successfully"
    (.reviewers reviewers)

/-!  ## Handlers with code outside their try block (claim C3)

`addReviewer` (lines 202-220) runs `Reviewer.findOne({email})` BEFORE its
`try` block, and `sendMail` (lines 121-147) runs
`nodemailer.createTransport` before its `try`. An exception raised by those
calls is not caught by the handler: the async function's promise rejects
and the error escapes. We model each external operation's outcome as an
`Except String` value injected into the handler; the handler itself returns
`Except String Resp`, where `.error e` is an exception escaping the handler
uncaught.
-/

/-- `addReviewer` with fault-injectable store operations. `findOneRes` is
the outcome of the pre-`try` duplicate check `Reviewer.findOne({email})`;
`saveRes` of `reviewer.save()`; `authUpdRes` of the
`Auth.findOneAndUpdate` flag flip (both inside the `try`). -/
def addReviewerH (findOneRes : Except String (Option Reviewer))
    (saveRes : Except String Reviewer)
    (authUpdRes : Except String (Option Auth)) : Except String Resp :=
  match findOneRes with
  | .error e => .error e
  | .ok (some _) => .ok (mkResp 400 false "Reviewer already exists")
  | .ok none =>
    match saveRes with
    | .error e => .ok (mkRespErr 404 "Reviewer addition failed" e)
    | .ok saved =>
      match authUpdRes with
      | .error e => .ok (mkRespErr 404 "Reviewer addition failed" e)
      | .ok _ =>
        .ok (mkRespData 201 true "Reviewer added successfully"
          (.reviewer saved))

/-- `sendMail` with a fault-injectable transport. `createRes` is the
outcome of the pre-`try` `nodemailer.createTransport`; `sendRes` of
`transporter.sendMail` inside the `try` (`some info` a truthy resolution,
`none` a falsy one). -/
def sendMailH (createRes : Except String Unit)
    (sendRes : Except String (Option String)) : Except String Resp :=
  match createRes with
  | .error e => .error e
  | .ok _ =>
    match sendRes with
    | .error e => .ok (mkRespErr 400 "Mail sending failed" e)
    | .ok (some _) => .ok (mkResp 200 true "Mail sent successfully")
    | .ok none => .ok (mkResp 400 false "Mail sending failed")

/-!  ## The response envelope (claim C9) -/

/-- Conformance to the documented envelope
`{ success: boolean, message: string, data?: any, error?: any }` with
status 200/201 on success and 400/404 on failure: the only keys besides
`success` and `message` are `data` and `error` (so no `filename` key), and
the status matches the success flag. -/
def envelopeOk (r : Resp) : Prop :=
  r.filename = none ∧
  (r.success = true → r.status = 200 ∨ r.status = 201) ∧
  (r.success = false → r.status = 400 ∨ r.status = 404)

instance (r : Resp) : Decidable (envelopeOk r) := by
  unfold envelopeOk; infer_instance

/-!  ## Sample records used by the witness theorems -/

/-- An article owned by user `"u1"`. -/
def articleOwned : Article :=
  { id := "a1", userId := "u1", title := "T1", abstract := "A1",
    keywords := ["x"], file := "f1.pdf",
    authors := [⟨"N1", "u1@x.com", "X"⟩], journalId := "J1",
    reviewers := [⟨"R", "rev@x.com", "pending", ""⟩], createdAt := 1 }

/-- An article owned by user `"u2"` that lists `"u1@x.com"` among its
authors. -/
def articleCoauthored : Article :=
  { id := "a2", userId := "u2", title := "T2", abstract := "A2",
    keywords := [], file := "f2.pdf",
    authors := [⟨"N2", "u1@x.com", "Y"⟩], journalId := "J1",
    reviewers := [⟨"S", "other@x.com", "pending", ""⟩,
                  ⟨"R", "rev@x.com", "pending", ""⟩], createdAt := 2 }

/-- An article unrelated to user `"u1"` and reviewer `"rev@x.com"`. -/
def articleUnrelated : Article :=
  { id := "a3", userId := "u3", title := "T3", abstract := "A3",
    keywords := [], file := "f3.pdf",
    authors := [⟨"N3", "u3@x.com", "Z"⟩], journalId := "J2",
    reviewers := [], createdAt := 3 }

/-- A concrete article store. -/
def sampleArticles : List Article :=
  [articleOwned, articleCoauthored, articleUnrelated]

/-- A journal whose editor is auth record `"e1"`. -/
def journalWithEditor : Journal :=
  { id := "J1", title := "Journal One", description := "d1",
    editorId := some "e1" }

/-- A journal with no editor assigned. -/
def journalNoEditor : Journal :=
  { id := "J2", title := "Journal Two", description := "d2",
    editorId := none }

/-- A concrete journal store. -/
def sampleJournals : List Journal := [journalWithEditor, journalNoEditor]

/-- The auth record of journal `"J1"`'s editor. -/
def authEditor : Auth :=
  { id := "e1", firstName := "Ed", middleName := "", lastName := "Itor",
    userName := "ed7", email := "ed@x.com", phoneNumber := "111",
    password := "PW", gender := "x", isEditor := true, isReviewer := false }

/-- The auth record behind reviewer `"rev@x.com"`. -/
def authReviewer : Auth :=
  { id := "u9", firstName := "Re", middleName := "", lastName := "Viewer",
    userName := "re1", email := "rev@x.com", phoneNumber := "222",
    password := "PW2", gender := "x", isEditor := false, isReviewer := true }

/-- A concrete auth store. -/
def sampleAuths : List Auth := [authEditor, authReviewer]

/-- A registered reviewer with email `"rev@x.com"`. -/
def sampleReviewer : Reviewer :=
  { id := "r1", firstName := "Re", lastName := "Viewer",
    email := "rev@x.com", affiliation := "X" }

/-- A replacement reviewer entry used as a review patch. -/
def samplePatch : ReviewerEntry :=
  ⟨"R", "rev@x.com", "accepted", "looks good"⟩

/-- An editor-assignment request whose email collides with `authEditor`. -/
def sampleEditorReq : EditorReq :=
  { journalId := "J2", firstName := "New", middleName := "", lastName := "Ed",
    email := "ed@x.com", phoneNumber := "999", gender := "x" }

/-- An uppercase-alphanumeric character: a decimal digit or an uppercase
letter. -/
def isUpperAlnumChar (c : Char) : Bool := c.isDigit || c.isUpper

/-- An uppercase-alphanumeric string. -/
def isUpperAlnumStr (s : String) : Bool := s.data.all isUpperAlnumChar

/-!  # Theorems -/

/-- Distinct store ids make article lookup by id injective. -/
theorem article_id_inj {store : List Article}
    (h : (store.map Article.id).Nodup) {a b : Article}
    (ha : a ∈ store) (hb : b ∈ store) (hab : a.id = b.id) : a = b :=
  List.inj_on_of_nodup_map h ha hb hab

/-- C1: for every user, `getArticle` fails with the 404 empty-result signal
iff no stored article is owned by the user or lists the user's email among
its authors; otherwise it returns exactly the articles satisfying that
visibility condition, each exactly once (the store's ids being distinct). -/
theorem getArticle_spec (store : List Article) (uid uemail : String)
    (hnodup : (store.map Article.id).Nodup) :
    ((getArticle store uid uemail).success = false ↔
       ∀ a ∈ store, ¬ visibleTo a uid uemail) ∧
    ((getArticle store uid uemail).success = false →
       (getArticle store uid uemail).status = 404 ∧
       (getArticle store uid uemail).data = none) ∧
    (∀ l, (getArticle store uid uemail).data = some (.articles l) →
       (getArticle store uid uemail).status = 200 ∧
       (getArticle store uid uemail).success = true ∧
       (∀ a, a ∈ l ↔ a ∈ store ∧ visibleTo a uid uemail) ∧
       (∀ a ∈ l, l.count a = 1)) := by
  classical
  have hstore : store.Nodup := hnodup.of_map
  unfold getArticle
  set articles := store.filter (fun a => a.userId == uid) with hart
  set others := store.filter (fun a => a.authors.any fun au => au.email == uemail) with hoth
  have hvis : ∀ a ∈ store, visibleTo a uid uemail ↔ (a ∈ articles ∨ a ∈ others) := by
    intro a ha
    simp [visibleTo, hart, hoth, List.mem_filter, ha, List.any_eq_true]
  by_cases hc : articles.length = 0 ∧ others.length = 0
  case pos =>
    rw [if_pos hc]
    have hempty : ∀ a ∈ store, ¬ visibleTo a uid uemail := by
      intro a ha hv
      rcases (hvis a ha).1 hv with h | h
      · rw [List.length_eq_zero.1 hc.1] at h; exact absurd h (List.not_mem_nil a)
      · rw [List.length_eq_zero.1 hc.2] at h; exact absurd h (List.not_mem_nil a)
    refine ⟨?_, fun _ => ⟨rfl, rfl⟩, by simp [mkResp]⟩
    simp only [mkResp]
    exact ⟨fun _ => hempty, fun _ => trivial⟩
  case neg =>
    rw [if_neg hc]
    refine ⟨?_, by simp [mkRespData], ?_⟩
    · constructor
      · intro h; exact absurd h (by simp [mkRespData])
      · intro hall
        exfalso
        rcases not_and_or.1 hc with h | h
        · rcases List.exists_mem_of_length_pos (Nat.pos_of_ne_zero h) with ⟨a, ha⟩
          have ha' : a ∈ store := (List.mem_filter.1 (hart ▸ ha)).1
          exact hall a ha' ((hvis a ha').2 (Or.inl ha))
        · rcases List.exists_mem_of_length_pos (Nat.pos_of_ne_zero h) with ⟨a, ha⟩
          have ha' : a ∈ store := (List.mem_filter.1 (hoth ▸ ha)).1
          exact hall a ha' ((hvis a ha').2 (Or.inr ha))
    · rintro l hl
      simp only [mkRespData, Option.some.injEq, JData.articles.injEq] at hl
      subst hl
      refine ⟨rfl, rfl, ?_, ?_⟩
      · intro a
        constructor
        · intro hmem
          rcases List.mem_append.1 hmem with h1 | h2
          · have := List.mem_filter.1 (hart ▸ h1)
            exact ⟨this.1, (hvis a this.1).2 (Or.inl h1)⟩
          · have h2' := (List.mem_filter.1 h2).1
            have hmem' := (List.mem_filter.1 (hoth ▸ h2')).1
            exact ⟨hmem', (hvis a hmem').2 (Or.inr h2')⟩
        · rintro ⟨hmem, hvisa⟩
          by_cases howned : a ∈ articles
          · exact List.mem_append.2 (Or.inl howned)
          · have hoth' : a ∈ others := ((hvis a hmem).1 hvisa).resolve_left howned
            refine List.mem_append.2 (Or.inr (List.mem_filter.2 ⟨hoth', ?_⟩))
            simp only [Bool.not_eq_true', List.any_eq_false]
            intro b hb
            have hbmem : b ∈ store := (List.mem_filter.1 (hart ▸ hb)).1
            simp only [beq_eq_false_iff_ne, ne_eq]
            intro hid
            exact howned (article_id_inj hnodup hbmem hmem (eq_of_beq hid) ▸ hb)
      · intro a ha
        have hn : (articles ++ others.filter
            (fun item2 => !(articles.any fun item1 => item1.id == item2.id))).Nodup := by
          refine List.Nodup.append (hart ▸ hstore.filter _)
            ((hoth ▸ hstore.filter _).filter _) ?_
          intro x hx1 hx2
          have hx2' := (List.mem_filter.1 hx2).2
          simp only [Bool.not_eq_true', List.any_eq_false] at hx2'
          have := hx2' x hx1
          simp at this
        exact List.count_eq_one_of_mem hn ha

/-- C1 witness: `getArticle_spec` applied to the concrete three-article
store, with the distinct-ids hypothesis discharged by evaluation. -/
theorem getArticle_spec_witness :
    (sampleArticles.map Article.id).Nodup ∧
    (((getArticle sampleArticles "u1" "u1@x.com").success = false ↔
       ∀ a ∈ sampleArticles, ¬ visibleTo a "u1" "u1@x.com") ∧
    ((getArticle sampleArticles "u1" "u1@x.com").success = false →
       (getArticle sampleArticles "u1" "u1@x.com").status = 404 ∧
       (getArticle sampleArticles "u1" "u1@x.com").data = none) ∧
    (∀ l, (getArticle sampleArticles "u1" "u1@x.com").data = some (.articles l) →
       (getArticle sampleArticles "u1" "u1@x.com").status = 200 ∧
       (getArticle sampleArticles "u1" "u1@x.com").success = true ∧
       (∀ a, a ∈ l ↔ a ∈ sampleArticles ∧ visibleTo a "u1" "u1@x.com") ∧
       (∀ a ∈ l, l.count a = 1))) :=
  ⟨by decide, getArticle_spec sampleArticles "u1" "u1@x.com" (by decide)⟩

/-- `find?` returns the unique element matching the predicate. -/
theorem find?_eq_some_unique {α : Type} {p : α → Bool} {l : List α} {x : α}
    (hx : x ∈ l) (hpx : p x = true)
    (huniq : ∀ y ∈ l, p y = true → y = x) :
    l.find? p = some x := by
  induction l with
  | nil => cases hx
  | cons b rest ih =>
    by_cases hb : p b = true
    · have hbx : b = x := huniq b (List.mem_cons_self b rest) hb
      subst hbx
      exact List.find?_cons_of_pos rest hb
    · rw [List.find?_cons_of_neg rest (by simpa using hb)]
      rcases List.mem_cons.1 hx with h | h
      · subst h; exact absurd hpx hb
      · exact ih h fun y hy => huniq y (List.mem_cons_of_mem _ hy)

/-- `findIndex` misses when no element matches. -/
theorem jsFindIndex_eq_none {α : Type} {p : α → Bool} {l : List α}
    (h : ∀ x ∈ l, ¬ p x = true) : jsFindIndex p l = none := by
  induction l with
  | nil => rfl
  | cons b rest ih =>
    have hb := h b (List.mem_cons_self b rest)
    simp only [jsFindIndex, if_neg hb]
    rw [ih fun x hx => h x (List.mem_cons_of_mem _ hx)]
    rfl

/-- `findIndex` finds the index of the first matching element. -/
theorem jsFindIndex_first {α : Type} {p : α → Bool} {pre post : List α}
    {r : α} (hr : p r = true) (hpre : ∀ x ∈ pre, ¬ p x = true) :
    jsFindIndex p (pre ++ r :: post) = some pre.length := by
  induction pre with
  | nil => simp [jsFindIndex, hr]
  | cons b rest ih =>
    have hb := hpre b (List.mem_cons_self b rest)
    simp only [List.cons_append, jsFindIndex, if_neg hb]
    rw [List.append_eq, ih fun x hx => hpre x (List.mem_cons_of_mem _ hx)]
    rfl

/-- When no element matches, the `arr[findIndex] = patch` assignment leaves
the element sequence unchanged. -/
theorem jsReplaceAtFound_no_match {α : Type} {p : α → Bool} (patch : α)
    {l : List α} (h : ∀ x ∈ l, ¬ p x = true) :
    jsReplaceAtFound p patch l = l := by
  unfold jsReplaceAtFound
  rw [jsFindIndex_eq_none h]

/-- `arr[findIndex] = patch` replaces exactly the first matching element. -/
theorem jsReplaceAtFound_first {α : Type} {p : α → Bool} (patch : α)
    {pre post : List α} {r : α}
    (hr : p r = true) (hpre : ∀ x ∈ pre, ¬ p x = true) :
    jsReplaceAtFound p patch (pre ++ r :: post) = pre ++ patch :: post := by
  unfold jsReplaceAtFound
  rw [jsFindIndex_first hr hpre]
  induction pre with
  | nil => rfl
  | cons b rest ih =>
    simp only [List.cons_append, List.length_cons, List.set]
    congr 1
    exact ih fun x hx => hpre x (List.mem_cons_of_mem _ hx)

/-- Saving back an unmodified fetched article leaves the store unchanged. -/
theorem saveArticle_self {store : List Article}
    (hnodup : (store.map Article.id).Nodup) {A : Article} (hA : A ∈ store) :
    saveArticle store A = store := by
  unfold saveArticle
  have h : ∀ b ∈ store, (if b.id == A.id then A else b) = b := by
    intro b hb
    by_cases hid : (b.id == A.id) = true
    · rw [if_pos hid]
      exact (article_id_inj hnodup hb hA (eq_of_beq hid)).symm
    · rw [if_neg hid]
  calc store.map (fun b => if b.id == A.id then A else b)
      = store.map id := List.map_congr_left h
    _ = store := List.map_id store

/-- C2: `updateReview` fails with the 404 not-found envelope and leaves the
store unchanged when the article id does not resolve; when it resolves, it
succeeds, replaces exactly the first reviewer entry whose email equals the
caller's with the supplied patch and persists the article, and when no
reviewer entry matches it persists nothing new — the store (hence the
article's reviewers sequence) is unchanged. -/
theorem updateReview_spec (store : List Article) (aid uemail : String)
    (patch : ReviewerEntry) (hnodup : (store.map Article.id).Nodup) :
    ((∀ a ∈ store, a.id ≠ aid) →
       updateReview store aid uemail patch =
         (mkResp 404 false "Journal article not found", store)) ∧
    (∀ A ∈ store, A.id = aid →
       (updateReview store aid uemail patch).1 =
         mkResp 200 true "Journal article updated successfully" ∧
       (∀ pre r post, A.reviewers = pre ++ r :: post → r.email = uemail →
          (∀ x ∈ pre, x.email ≠ uemail) →
          (updateReview store aid uemail patch).2 =
            saveArticle store { A with reviewers := pre ++ patch :: post }) ∧
       ((∀ x ∈ A.reviewers, x.email ≠ uemail) →
          (updateReview store aid uemail patch).2 = store)) := by
  constructor
  · intro hnone
    unfold updateReview
    rw [List.find?_eq_none.2 (by intro a ha; simpa using hnone a ha)]
  · intro A hA hid
    have hfind : store.find? (fun a => a.id == aid) = some A := by
      refine find?_eq_some_unique hA (by simp [hid]) ?_
      intro y hy hpy
      exact article_id_inj hnodup hy hA (by rw [eq_of_beq hpy, hid])
    refine ⟨?_, ?_, ?_⟩
    · unfold updateReview
      rw [hfind]
    · intro pre r post hrev hr hpre
      unfold updateReview
      rw [hfind]
      simp only
      rw [hrev, jsReplaceAtFound_first patch (by simp [hr])
        (by intro x hx; simpa using hpre x hx)]
    · intro hno
      unfold updateReview
      rw [hfind]
      simp only
      rw [jsReplaceAtFound_no_match patch
        (by intro x hx; simpa using hno x hx)]
      exact saveArticle_self hnodup hA

/-- C2 witness: `updateReview_spec` applied to the concrete store, patching
reviewer `"rev@x.com"`'s entry inside article `"a2"`. -/
theorem updateReview_spec_witness :
    (sampleArticles.map Article.id).Nodup ∧
    (((∀ a ∈ sampleArticles, a.id ≠ "a2") →
       updateReview sampleArticles "a2" "rev@x.com" samplePatch =
         (mkResp 404 false "Journal article not found", sampleArticles)) ∧
    (∀ A ∈ sampleArticles, A.id = "a2" →
       (updateReview sampleArticles "a2" "rev@x.com" samplePatch).1 =
         mkResp 200 true "Journal article updated successfully" ∧
       (∀ pre r post, A.reviewers = pre ++ r :: post → r.email = "rev@x.com" →
          (∀ x ∈ pre, x.email ≠ "rev@x.com") →
          (updateReview sampleArticles "a2" "rev@x.com" samplePatch).2 =
            saveArticle sampleArticles { A with reviewers := pre ++ samplePatch :: post }) ∧
       ((∀ x ∈ A.reviewers, x.email ≠ "rev@x.com") →
          (updateReview sampleArticles "a2" "rev@x.com" samplePatch).2 = sampleArticles))) :=
  ⟨by decide, updateReview_spec sampleArticles "a2" "rev@x.com" samplePatch (by decide)⟩

/-- Distinct keys make lookup by key injective. -/
theorem key_inj {α : Type} {f : α → String} {l : List α}
    (h : (l.map f).Nodup) {a b : α} (ha : a ∈ l) (hb : b ∈ l)
    (hab : f a = f b) : a = b :=
  List.inj_on_of_nodup_map h ha hb hab

/-- Erasing by a key that is unique in the list removes exactly the
elements carrying that key. -/
theorem mem_eraseP_of_unique_key {α : Type} (f : α → String) {l : List α}
    (hnodup : (l.map f).Nodup) (k : String) :
    ∀ y, y ∈ l.eraseP (fun a => f a == k) ↔ (y ∈ l ∧ f y ≠ k) := by
  induction l with
  | nil => simp
  | cons b rest ih =>
    simp only [List.map_cons, List.nodup_cons] at hnodup
    intro y
    by_cases hb : (f b == k) = true
    · have he : List.eraseP (fun a => f a == k) (b :: rest) = rest :=
        List.eraseP_cons_of_pos hb
      rw [he]
      constructor
      · intro hy
        refine ⟨List.mem_cons_of_mem _ hy, ?_⟩
        intro hk
        exact hnodup.1 (by
          rw [← eq_of_beq hb] at hk
          exact hk ▸ List.mem_map_of_mem f hy)
      · rintro ⟨hy, hk⟩
        rcases List.mem_cons.1 hy with h | h
        · subst h; exact absurd (eq_of_beq hb) hk
        · exact h
    · have he : List.eraseP (fun a => f a == k) (b :: rest) =
          b :: List.eraseP (fun a => f a == k) rest :=
        List.eraseP_cons_of_neg hb
      rw [he]
      simp only [List.mem_cons, ih hnodup.2 y]
      constructor
      · rintro (h | ⟨h1, h2⟩)
        · exact ⟨Or.inl h, by subst h; simpa using hb⟩
        · exact ⟨Or.inr h1, h2⟩
      · rintro ⟨h | h, h2⟩
        · exact Or.inl h
        · exact Or.inr ⟨h, h2⟩

/-- C4: `deleteJournal` fails with the 404 not-found envelope and deletes
nothing when the journal id does not resolve; when it resolves it removes
that journal, removes the auth record its `editorId` references when one
was set, and touches no auth record when the journal had no editor. -/
theorem deleteJournal_spec (journals : List Journal) (auths : List Auth)
    (jid : String)
    (hjn : (journals.map Journal.id).Nodup)
    (han : (auths.map Auth.id).Nodup) :
    ((∀ j ∈ journals, j.id ≠ jid) →
       deleteJournal journals auths jid =
         (mkResp 404 false "Journal not found", journals, auths)) ∧
    (∀ J ∈ journals, J.id = jid →
       (deleteJournal journals auths jid).1 =
         mkResp 200 true "Journal deleted successfully" ∧
       (∀ j, j ∈ (deleteJournal journals auths jid).2.1 ↔
          (j ∈ journals ∧ j.id ≠ jid)) ∧
       (J.editorId = none → (deleteJournal journals auths jid).2.2 = auths) ∧
       (∀ e, J.editorId = some e →
          ∀ u, u ∈ (deleteJournal journals auths jid).2.2 ↔
            (u ∈ auths ∧ u.id ≠ e))) := by
  constructor
  · intro hnone
    unfold deleteJournal
    rw [List.find?_eq_none.2 (by intro j hj; simpa using hnone j hj)]
  · intro J hJ hid
    have hfind : journals.find? (fun j => j.id == jid) = some J := by
      refine find?_eq_some_unique hJ (by simp [hid]) ?_
      intro y hy hpy
      exact key_inj hjn hy hJ (by rw [eq_of_beq hpy, hid])
    refine ⟨?_, ?_, ?_, ?_⟩
    · unfold deleteJournal
      rw [hfind]
    · intro j
      unfold deleteJournal
      rw [hfind]
      simp only
      exact mem_eraseP_of_unique_key Journal.id hjn jid j
    · intro hnone
      unfold deleteJournal
      rw [hfind]
      simp only [hnone]
    · intro e he u
      unfold deleteJournal
      rw [hfind]
      simp only [he]
      exact mem_eraseP_of_unique_key Auth.id han e u

/-- C4 witness: `deleteJournal_spec` applied to the concrete stores,
deleting journal `"J1"` whose editor is auth record `"e1"`. -/
theorem deleteJournal_spec_witness :
    (sampleJournals.map Journal.id).Nodup ∧
    (sampleAuths.map Auth.id).Nodup ∧
    (((∀ j ∈ sampleJournals, j.id ≠ "J1") →
       deleteJournal sampleJournals sampleAuths "J1" =
         (mkResp 404 false "Journal not found", sampleJournals, sampleAuths)) ∧
    (∀ J ∈ sampleJournals, J.id = "J1" →
       (deleteJournal sampleJournals sampleAuths "J1").1 =
         mkResp 200 true "Journal deleted successfully" ∧
       (∀ j, j ∈ (deleteJournal sampleJournals sampleAuths "J1").2.1 ↔
          (j ∈ sampleJournals ∧ j.id ≠ "J1")) ∧
       (J.editorId = none →
          (deleteJournal sampleJournals sampleAuths "J1").2.2 = sampleAuths) ∧
       (∀ e, J.editorId = some e →
          ∀ u, u ∈ (deleteJournal sampleJournals sampleAuths "J1").2.2 ↔
            (u ∈ sampleAuths ∧ u.id ≠ e)))) :=
  ⟨by decide, by decide,
   deleteJournal_spec sampleJournals sampleAuths "J1" (by decide) (by decide)⟩


/-- C5: when the requested editor email or phone number already belongs to
an auth record, `addEditor` fails with a 400 conflict response and leaves
both the auth store and the journal store exactly as they were. -/
theorem addEditor_conflict_spec (auths : List Auth) (journals : List Journal)
    (body : EditorReq) (freshId : String) (kPass kName : Nat)
    (hconf : ∃ u ∈ auths,
       u.email = body.email ∨ u.phoneNumber = body.phoneNumber) :
    (addEditor auths journals body freshId kPass kName).1.success = false ∧
    (addEditor auths journals body freshId kPass kName).1.status = 400 ∧
    (addEditor auths journals body freshId kPass kName).2.1 = auths ∧
    (addEditor auths journals body freshId kPass kName).2.2 = journals := by
  unfold addEditor
  cases hemail : auths.find? (fun u => u.email == body.email) with
  | some u =>
    exact ⟨rfl, rfl, rfl, rfl⟩
  | none =>
    have hph : ∃ u ∈ auths, u.phoneNumber = body.phoneNumber := by
      rcases hconf with ⟨u, hu, h | h⟩
      · have hne := List.find?_eq_none.1 hemail u hu
        simp at hne
        exact absurd h hne
      · exact ⟨u, hu, h⟩
    cases hphone : auths.find? (fun u => u.phoneNumber == body.phoneNumber) with
    | some u =>
      exact ⟨rfl, rfl, rfl, rfl⟩
    | none =>
      exfalso
      rcases hph with ⟨u, hu, h⟩
      have hne := List.find?_eq_none.1 hphone u hu
      simp at hne
      exact hne h

/-- C6: `getReviewArticles` fails with the 404 empty-result signal iff no
stored article carries a reviewer entry with the caller's email; otherwise
every returned item stems from an article with a matching entry, its
reviewers sequence holds exactly that article's entries whose email equals
the caller's (never another reviewer's entry), and every matching article
appears. -/
theorem getReviewArticles_spec (store : List Article) (uemail : String) :
    ((getReviewArticles store uemail).success = false ↔
       ∀ a ∈ store, ∀ r ∈ a.reviewers, r.email ≠ uemail) ∧
    ((getReviewArticles store uemail).success = false →
       (getReviewArticles store uemail).status = 404 ∧
       (getReviewArticles store uemail).data = none) ∧
    (∀ l, (getReviewArticles store uemail).data = some (.reviewArticles l) →
       (getReviewArticles store uemail).status = 200 ∧
       (getReviewArticles store uemail).success = true ∧
       (∀ v ∈ l, (∀ r ∈ v.reviewers, r.email = uemail) ∧
          v.reviewers ≠ [] ∧
          ∃ a ∈ store, (∃ r ∈ a.reviewers, r.email = uemail) ∧
            v = projectReview a uemail) ∧
       (∀ a ∈ store, (∃ r ∈ a.reviewers, r.email = uemail) →
          projectReview a uemail ∈ l)) := by
  classical
  unfold getReviewArticles
  set matched := store.filter (fun a => a.reviewers.any fun r => r.email == uemail) with hm
  have hmem : ∀ a, a ∈ matched ↔ (a ∈ store ∧ ∃ r ∈ a.reviewers, r.email = uemail) := by
    intro a
    simp [hm, List.mem_filter, List.any_eq_true]
  by_cases hc : matched.length = 0
  case pos =>
    rw [if_pos hc]
    have hempty : ∀ a ∈ store, ∀ r ∈ a.reviewers, r.email ≠ uemail := by
      intro a ha r hr he
      have : a ∈ matched := (hmem a).2 ⟨ha, r, hr, he⟩
      rw [List.length_eq_zero.1 hc] at this
      exact absurd this (List.not_mem_nil a)
    refine ⟨?_, fun _ => ⟨rfl, rfl⟩, by simp [mkResp]⟩
    simp only [mkResp]
    exact ⟨fun _ => hempty, fun _ => trivial⟩
  case neg =>
    rw [if_neg hc]
    refine ⟨?_, by simp [mkRespData], ?_⟩
    · constructor
      · intro h; exact absurd h (by simp [mkRespData])
      · intro hall
        exfalso
        rcases List.exists_mem_of_length_pos (Nat.pos_of_ne_zero hc) with ⟨a, ha⟩
        rcases (hmem a).1 ha with ⟨hstore, r, hr, he⟩
        exact hall a hstore r hr he
    · rintro l hl
      simp only [mkRespData, Option.some.injEq, JData.reviewArticles.injEq] at hl
      subst hl
      refine ⟨rfl, rfl, ?_, ?_⟩
      · intro v hv
        rcases List.mem_map.1 hv with ⟨a, ha, hva⟩
        rcases (hmem a).1 ha with ⟨hstore, r, hr, he⟩
        subst hva
        refine ⟨?_, ?_, a, hstore, ⟨r, hr, he⟩, rfl⟩
        · intro x hx
          have := (List.mem_filter.1 hx).2
          exact eq_of_beq this
        · exact List.ne_nil_of_mem
            (List.mem_filter.2 ⟨hr, by simp [he]⟩)
      · intro a ha hex
        exact List.mem_map_of_mem _ ((hmem a).2 ⟨ha, hex⟩)

theorem setIsReviewerFirst_eq_map {auths : List Auth}
    (hnodup : (auths.map Auth.email).Nodup) (email : String) (b : Bool) :
    setIsReviewerFirst email b auths =
      auths.map (fun u =>
        if u.email = email then { u with isReviewer := b } else u) := by
  induction auths with
  | nil => rfl
  | cons u rest ih =>
    simp only [List.map_cons, List.nodup_cons] at hnodup
    by_cases hu : u.email = email
    · simp only [setIsReviewerFirst, if_pos (beq_iff_eq.2 hu), List.map_cons,
        if_pos hu]
      have hrest : ∀ x ∈ rest, x.email ≠ email := by
        intro x hx hxe
        exact hnodup.1 (hu ▸ hxe ▸ List.mem_map_of_mem Auth.email hx)
      have : rest.map (fun u =>
          if u.email = email then { u with isReviewer := b } else u) = rest := by
        calc rest.map (fun u =>
            if u.email = email then { u with isReviewer := b } else u)
            = rest.map id := List.map_congr_left
              (fun x hx => by rw [if_neg (hrest x hx)]; rfl)
          _ = rest := List.map_id rest
      rw [this]
    · simp only [setIsReviewerFirst,
        if_neg (fun h => hu (eq_of_beq h)), List.map_cons, if_neg hu]
      rw [ih hnodup.2]

/-- C7: `deleteReviewer` fails with the 404 not-found envelope and touches
nothing when the reviewer id does not resolve; when it resolves it removes
that reviewer and rewrites the auth store so that the record with the
reviewer's email keeps all its fields except `isReviewer`, which becomes
false, every other auth record being untouched (so the record still
exists). -/
theorem deleteReviewer_spec (reviewers : List Reviewer) (auths : List Auth)
    (rid : String)
    (hrn : (reviewers.map Reviewer.id).Nodup)
    (han : (auths.map Auth.email).Nodup) :
    ((∀ r ∈ reviewers, r.id ≠ rid) →
       deleteReviewer reviewers auths rid =
         (mkResp 404 false "Reviewer not found", reviewers, auths)) ∧
    (∀ R ∈ reviewers, R.id = rid →
       (deleteReviewer reviewers auths rid).1 =
         mkResp 200 true "Reviewer deleted successfully" ∧
       (∀ r, r ∈ (deleteReviewer reviewers auths rid).2.1 ↔
          (r ∈ reviewers ∧ r.id ≠ rid)) ∧
       (deleteReviewer reviewers auths rid).2.2 =
         auths.map (fun u =>
           if u.email = R.email then { u with isReviewer := false } else u)) := by
  constructor
  · intro hnone
    unfold deleteReviewer
    rw [List.find?_eq_none.2 (by intro r hr; simpa using hnone r hr)]
  · intro R hR hid
    have hfind : reviewers.find? (fun r => r.id == rid) = some R := by
      refine find?_eq_some_unique hR (by simp [hid]) ?_
      intro y hy hpy
      exact key_inj hrn hy hR (by rw [eq_of_beq hpy, hid])
    refine ⟨?_, ?_, ?_⟩
    · unfold deleteReviewer
      rw [hfind]
    · intro r
      unfold deleteReviewer
      rw [hfind]
      simp only
      exact mem_eraseP_of_unique_key Reviewer.id hrn rid r
    · unfold deleteReviewer
      rw [hfind]
      simp only
      exact setIsReviewerFirst_eq_map han R.email false

theorem setEditorIdFirst_eq_map {journals : List Journal}
    (hnodup : (journals.map Journal.id).Nodup) (jid : String)
    (e : Option String) :
    setEditorIdFirst jid e journals =
      journals.map (fun j =>
        if j.id = jid then { j with editorId := e } else j) := by
  induction journals with
  | nil => rfl
  | cons j rest ih =>
    simp only [List.map_cons, List.nodup_cons] at hnodup
    by_cases hj : j.id = jid
    · simp only [setEditorIdFirst, if_pos (beq_iff_eq.2 hj), List.map_cons,
        if_pos hj]
      have hrest : ∀ x ∈ rest, x.id ≠ jid := by
        intro x hx hxe
        exact hnodup.1 (hj ▸ hxe ▸ List.mem_map_of_mem Journal.id hx)
      have : rest.map (fun j =>
          if j.id = jid then { j with editorId := e } else j) = rest := by
        calc rest.map (fun j =>
            if j.id = jid then { j with editorId := e } else j)
            = rest.map id := List.map_congr_left
              (fun x hx => by rw [if_neg (hrest x hx)]; rfl)
          _ = rest := List.map_id rest
      rw [this]
    · simp only [setEditorIdFirst,
        if_neg (fun h => hj (eq_of_beq h)), List.map_cons, if_neg hj]
      rw [ih hnodup.2]

/-- C10: `removeEditor` fails exactly when the journal id does not resolve
(in which case nothing changes); on a journal with no assigned editor it
still answers 200 success, deletes no auth record, and leaves the journal
present with `editorId` null. -/
theorem removeEditor_spec (journals : List Journal) (auths : List Auth)
    (jid : String) (hjn : (journals.map Journal.id).Nodup) :
    (((removeEditor journals auths jid).1.success = false) ↔
       ∀ j ∈ journals, j.id ≠ jid) ∧
    (((removeEditor journals auths jid).1.success = false) →
       removeEditor journals auths jid =
         (mkResp 404 false "Journal not found", journals, auths)) ∧
    (∀ J ∈ journals, J.id = jid → J.editorId = none →
       (removeEditor journals auths jid).1 =
         mkResp 200 true "Editor removed successfully" ∧
       (removeEditor journals auths jid).2.2 = auths ∧
       (removeEditor journals auths jid).2.1 =
         journals.map (fun j =>
           if j.id = jid then { j with editorId := none } else j) ∧
       J ∈ (removeEditor journals auths jid).2.1) := by
  have hnotfound : (∀ j ∈ journals, j.id ≠ jid) →
      removeEditor journals auths jid =
        (mkResp 404 false "Journal not found", journals, auths) := by
    intro hnone
    unfold removeEditor
    rw [List.find?_eq_none.2 (by intro j hj; simpa using hnone j hj)]
  have hfwd : (removeEditor journals auths jid).1.success = false →
      ∀ j ∈ journals, j.id ≠ jid := by
    intro hfail j hj hid
    rcases hfound : journals.find? (fun j => j.id == jid) with _ | J
    · have hne := List.find?_eq_none.1 hfound j hj
      simp at hne
      exact hne hid
    · unfold removeEditor at hfail
      rw [hfound] at hfail
      simp [mkResp] at hfail
  refine ⟨⟨hfwd, fun h => by rw [hnotfound h]; rfl⟩,
    fun h => hnotfound (hfwd h), ?_⟩
  intro J hJ hid hnoe
  have hfind : journals.find? (fun j => j.id == jid) = some J := by
    refine find?_eq_some_unique hJ (by simp [hid]) ?_
    intro y hy hpy
    exact key_inj hjn hy hJ (by rw [eq_of_beq hpy, hid])
  refine ⟨?_, ?_, ?_, ?_⟩
  · unfold removeEditor
    rw [hfind]
  · unfold removeEditor
    rw [hfind]
    simp only [hnoe]
  · unfold removeEditor
    rw [hfind]
    simp only
    exact setEditorIdFirst_eq_map hjn jid none
  · unfold removeEditor
    rw [hfind]
    simp only
    rw [setEditorIdFirst_eq_map hjn jid none]
    have hJeq : (if J.id = jid then { J with editorId := none } else J) = J := by
      rw [if_pos hid, ← hnoe]
    exact hJeq ▸ List.mem_map_of_mem _ hJ


/-- C5 witness: `addEditor_conflict_spec` on the concrete stores with a
request reusing `authEditor`'s email. -/
theorem addEditor_conflict_spec_witness :
    (∃ u ∈ sampleAuths,
       u.email = sampleEditorReq.email ∨
       u.phoneNumber = sampleEditorReq.phoneNumber) ∧
    ((addEditor sampleAuths sampleJournals sampleEditorReq "e9" 1 2).1.success = false ∧
     (addEditor sampleAuths sampleJournals sampleEditorReq "e9" 1 2).1.status = 400 ∧
     (addEditor sampleAuths sampleJournals sampleEditorReq "e9" 1 2).2.1 = sampleAuths ∧
     (addEditor sampleAuths sampleJournals sampleEditorReq "e9" 1 2).2.2 = sampleJournals) :=
  ⟨by decide,
   addEditor_conflict_spec sampleAuths sampleJournals sampleEditorReq "e9" 1 2
     (by decide)⟩

/-- C7 witness: `deleteReviewer_spec` on the concrete stores, deleting
reviewer `"r1"` whose email is `authReviewer`'s. -/
theorem deleteReviewer_spec_witness :
    ([sampleReviewer].map Reviewer.id).Nodup ∧
    (sampleAuths.map Auth.email).Nodup ∧
    (((∀ r ∈ [sampleReviewer], r.id ≠ "r1") →
       deleteReviewer [sampleReviewer] sampleAuths "r1" =
         (mkResp 404 false "Reviewer not found", [sampleReviewer], sampleAuths)) ∧
    (∀ R ∈ [sampleReviewer], R.id = "r1" →
       (deleteReviewer [sampleReviewer] sampleAuths "r1").1 =
         mkResp 200 true "Reviewer deleted successfully" ∧
       (∀ r, r ∈ (deleteReviewer [sampleReviewer] sampleAuths "r1").2.1 ↔
          (r ∈ [sampleReviewer] ∧ r.id ≠ "r1")) ∧
       (deleteReviewer [sampleReviewer] sampleAuths "r1").2.2 =
         sampleAuths.map (fun u =>
           if u.email = R.email then { u with isReviewer := false } else u))) :=
  ⟨by decide, by decide,
   deleteReviewer_spec [sampleReviewer] sampleAuths "r1" (by decide) (by decide)⟩

/-- C10 witness: `removeEditor_spec` on the concrete stores; journal `"J2"`
has no assigned editor. -/
theorem removeEditor_spec_witness :
    (sampleJournals.map Journal.id).Nodup ∧
    ((((removeEditor sampleJournals sampleAuths "J2").1.success = false) ↔
       ∀ j ∈ sampleJournals, j.id ≠ "J2") ∧
    (((removeEditor sampleJournals sampleAuths "J2").1.success = false) →
       removeEditor sampleJournals sampleAuths "J2" =
         (mkResp 404 false "Journal not found", sampleJournals, sampleAuths)) ∧
    (∀ J ∈ sampleJournals, J.id = "J2" → J.editorId = none →
       (removeEditor sampleJournals sampleAuths "J2").1 =
         mkResp 200 true "Editor removed successfully" ∧
       (removeEditor sampleJournals sampleAuths "J2").2.2 = sampleAuths ∧
       (removeEditor sampleJournals sampleAuths "J2").2.1 =
         sampleJournals.map (fun j =>
           if j.id = "J2" then { j with editorId := none } else j) ∧
       J ∈ (removeEditor sampleJournals sampleAuths "J2").2.1)) :=
  ⟨by decide, removeEditor_spec sampleJournals sampleAuths "J2" (by decide)⟩



/-- C3 counterexample: an exception raised by the `Reviewer.findOne`
duplicate check — which `addReviewer` runs before its `try` block — or by
`sendMail`'s pre-`try` `createTransport` escapes the handler uncaught
instead of being converted into an envelope; in particular it is not the
case that every execution of `addReviewer` yields a response. -/
theorem addReviewer_error_escapes :
    addReviewerH (.error "connection lost") (.ok sampleReviewer) (.ok none) =
      .error "connection lost" ∧
    sendMailH (.error "bad transport config") (.ok none) =
      .error "bad transport config" ∧
    ¬ (∀ findOneRes saveRes authUpdRes,
        ∃ r, addReviewerH findOneRes saveRes authUpdRes = Except.ok r) := by
  refine ⟨rfl, rfl, ?_⟩
  intro h
  rcases h (.error "connection lost") (.ok sampleReviewer) (.ok none) with ⟨r, hr⟩
  exact Except.noConfusion hr

/-- C3 amended: errors raised inside a handler's `try` block are caught at
the handler's boundary and become envelopes whose failure statuses are
400/404, but an error raised by the code the handler runs before its `try`
(`addReviewer`'s duplicate check, `sendMail`'s transporter construction)
escapes the handler uncaught. -/
theorem handler_try_boundary (x : Option Reviewer)
    (saveRes : Except String Reviewer)
    (authUpdRes : Except String (Option Auth))
    (sendRes : Except String (Option String)) (e : String) :
    (∃ r, addReviewerH (.ok x) saveRes authUpdRes = .ok r ∧
       (r.success = false → r.status = 400 ∨ r.status = 404)) ∧
    (∃ r, sendMailH (.ok ()) sendRes = .ok r ∧
       (r.success = false → r.status = 400 ∨ r.status = 404)) ∧
    addReviewerH (.error e) saveRes authUpdRes = .error e ∧
    sendMailH (.error e) sendRes = .error e := by
  refine ⟨?_, ?_, rfl, rfl⟩
  · cases x with
    | some rdata => exact ⟨_, rfl, fun _ => Or.inl rfl⟩
    | none =>
      cases saveRes with
      | error e2 => exact ⟨_, rfl, fun _ => Or.inr rfl⟩
      | ok saved =>
        cases authUpdRes with
        | error e2 => exact ⟨_, rfl, fun _ => Or.inr rfl⟩
        | ok a => exact ⟨_, rfl, fun h => by simp [mkRespData] at h⟩
  · cases sendRes with
    | error e2 => exact ⟨_, rfl, fun _ => Or.inl rfl⟩
    | ok info =>
      cases info with
      | some i => exact ⟨_, rfl, fun h => by simp [mkResp] at h⟩
      | none => exact ⟨_, rfl, fun _ => Or.inl rfl⟩

/-- An uppercased base-36 digit character is uppercase alphanumeric. -/
theorem digitChar36_upper_alnum :
    ∀ d, d < 36 → isUpperAlnumChar (Char.toUpper (digitChar36 d)) = true := by
  decide

/-- Every digit of the base-36 expansion is smaller than 36. -/
theorem base36FracDigits_lt : ∀ (fuel r : Nat), r < 2 ^ 53 →
    ∀ d ∈ base36FracDigits fuel r, d < 36 := by
  intro fuel
  induction fuel with
  | zero => intro r hr d hd; cases hd
  | succ fuel ih =>
    intro r hr d hd
    simp only [base36FracDigits] at hd
    by_cases h0 : r = 0
    · rw [if_pos h0] at hd; cases hd
    · rw [if_neg h0] at hd
      rcases List.mem_cons.1 hd with h | h
      · subst h
        have : r * 36 < 36 * 2 ^ 53 := by omega
        exact (Nat.div_lt_iff_lt_mul (by positivity)).2 this
      · exact ih (r * 36 % 2 ^ 53) (Nat.mod_lt _ (by positivity)) d h

/-- C8 counterexample: the generated password is not a fixed-length
uppercase alphanumeric string for every value of the random source — the
draw 0 yields `"0"` (length 1) and the draw `2^52` (the double 0.5) yields
`"0.I"` (length 3, containing a dot), so no length `L` fits all draws. -/
theorem genPassword_shape_counterexample :
    genPassword 0 = "0" ∧
    (genPassword 0).length = 1 ∧
    genPassword (2 ^ 52) = "0.I" ∧
    (genPassword (2 ^ 52)).length = 3 ∧
    isUpperAlnumStr (genPassword (2 ^ 52)) = false ∧
    ¬ (∃ L, ∀ k, k < 2 ^ 53 →
        (genPassword k).length = L ∧ isUpperAlnumStr (genPassword k) = true) := by
  refine ⟨by decide, by decide, by decide, by decide, by decide, ?_⟩
  rintro ⟨L, hL⟩
  have h52 := hL (2 ^ 52) (by norm_num)
  have : isUpperAlnumStr (genPassword (2 ^ 52)) = false := by decide
  rw [h52.2] at this
  exact Bool.noConfusion this

/-- C8 amended: the password is the last up-to-10 characters of the
uppercased base-36 expansion of the random draw — a 10-character uppercase
alphanumeric string whenever the expansion carries at least 10 fractional
digits (the typical case), though not for every draw; the username is the
lowercased first name followed by the decimal numeric suffix
`floor(random * 1000) < 1000`, with no uniqueness check (`addEditor` never
queries the store for a username). -/
theorem addEditor_credentials_spec (k kn : Nat) (name : String)
    (hk : k < 2 ^ 53) (hkn : kn < 2 ^ 53)
    (hlong : 10 ≤ (base36FracDigits 27 k).length) :
    (genPassword k).length = 10 ∧
    isUpperAlnumStr (genPassword k) = true ∧
    genUserName name kn = jsToLowerCase name ++ toString (kn * 1000 / 2 ^ 53) ∧
    kn * 1000 / 2 ^ 53 < 1000 := by
  have hk0 : k ≠ 0 := by
    intro h
    subst h
    simp [base36FracDigits] at hlong
  set digits := base36FracDigits 27 k with hdig
  set n := digits.length with hn
  have hs : jsToString36 k = "0." ++ String.mk (digits.map digitChar36) := by
    unfold jsToString36
    rw [if_neg hk0]
  have hupper : jsToUpperCase (jsToString36 k) =
      String.mk ('0' :: '.' :: (digits.map digitChar36).map Char.toUpper) := by
    rw [hs]
    rfl
  have hlen : ('0' :: '.' :: (digits.map digitChar36).map Char.toUpper).length
      = n + 2 := by
    simp [hn]
  have hdrop : (genPassword k).data =
      ((digits.map digitChar36).map Char.toUpper).drop (n - 10) := by
    unfold genPassword
    rw [hupper]
    unfold jsSliceNeg
    simp only []
    rw [hlen]
    have harith : n + 2 - 10 = (n - 10) + 1 + 1 := by omega
    rw [harith, List.drop_succ_cons, List.drop_succ_cons]
  have hlenmap : ((digits.map digitChar36).map Char.toUpper).length = n := by
    simp [hn]
  refine ⟨?_, ?_, rfl, ?_⟩
  · show (genPassword k).data.length = 10
    rw [hdrop, List.length_drop, hlenmap]
    omega
  · unfold isUpperAlnumStr
    rw [hdrop]
    rw [List.all_eq_true]
    intro c hc
    have hc' : c ∈ (digits.map digitChar36).map Char.toUpper :=
      List.drop_subset _ _ hc
    rcases List.mem_map.1 hc' with ⟨c0, hc0, hcc⟩
    rcases List.mem_map.1 hc0 with ⟨d, hdm, hdc⟩
    have hd36 : d < 36 := base36FracDigits_lt 27 k hk d (hdig ▸ hdm)
    subst hcc
    subst hdc
    exact digitChar36_upper_alnum d hd36
  · have : kn * 1000 < 1000 * 2 ^ 53 := by omega
    exact (Nat.div_lt_iff_lt_mul (by positivity)).2 this


/-- C9 counterexample: `createZip`'s success response is not the uniform
envelope — it carries the archive name under a `filename` key, which is
neither `data` nor `error`. -/
theorem createZip_envelope_counterexample :
    (createZip ["a.txt"] (fun _ => true) 5).success = true ∧
    (createZip ["a.txt"] (fun _ => true) 5).status = 200 ∧
    (createZip ["a.txt"] (fun _ => true) 5).filename = some "5.zip" ∧
    (createZip ["a.txt"] (fun _ => true) 5).data = none ∧
    ¬ envelopeOk (createZip ["a.txt"] (fun _ => true) 5) := by
  refine ⟨by decide, by decide, by decide, by decide, ?_⟩
  intro h
  have := h.1
  rw [show (createZip ["a.txt"] (fun _ => true) 5).filename = some "5.zip" from by decide] at this
  exact Option.noConfusion this

/-- C9 amended: every response produced by every handler of the controller
— `addArticle`, `getArticle`, `sendMail`, `getJournalList`, `addJournal`,
`deleteJournal`, `getArticleList`, `updateArticle`, `addReviewer`,
`addBulkReviewer`, `getReviewerList`, `getReviewArticles`, `updateReview`,
`deleteReviewer`, `addEditor`, `removeEditor` and `createZip` — conforms
to the envelope `{success, message, data?, error?}` with statuses 200/201
on success and 400/404 on failure, except `createZip`'s success response,
which still uses status 200 but carries the archive name under a
`filename` key instead of `data`. -/
theorem envelope_spec (storeA : List Article) (uid uemail aid : String)
    (patch : ReviewerEntry) (journals : List Journal) (auths : List Auth)
    (jid rid freshId jlid : String) (body : EditorReq) (kPass kName : Nat)
    (reviewers : List Reviewer) (files : List String)
    (disk : String → Bool) (now : Nat) (x : Option Reviewer)
    (saveRes : Except String Reviewer)
    (authUpdRes : Except String (Option Auth))
    (sendRes : Except String (Option String))
    (parseKeywords : Except String (List String))
    (parseAuthors : Except String (List Author))
    (saveArticleRes : Except String Article)
    (saveJournalRes : Except String Journal)
    (bodyA : Article)
    (insertRes : Except String (List Reviewer)) :
    envelopeOk (getArticle storeA uid uemail) ∧
    envelopeOk (updateReview storeA aid uemail patch).1 ∧
    envelopeOk (deleteJournal journals auths jid).1 ∧
    envelopeOk (getReviewArticles storeA uemail) ∧
    envelopeOk (deleteReviewer reviewers auths rid).1 ∧
    envelopeOk (removeEditor journals auths jid).1 ∧
    envelopeOk (addEditor auths journals body freshId kPass kName).1 ∧
    (∀ r, addReviewerH (.ok x) saveRes authUpdRes = .ok r → envelopeOk r) ∧
    (∀ r, sendMailH (.ok ()) sendRes = .ok r → envelopeOk r) ∧
    envelopeOk (addArticle parseKeywords parseAuthors saveArticleRes) ∧
    envelopeOk (addJournal saveJournalRes) ∧
    envelopeOk (getJournalList journals auths) ∧
    envelopeOk (getArticleList storeA jlid) ∧
    envelopeOk (updateArticle storeA bodyA).1 ∧
    envelopeOk (addBulkReviewer insertRes) ∧
    envelopeOk (getReviewerList reviewers) ∧
    ((createZip files disk now).success = false →
       envelopeOk (createZip files disk now)) ∧
    ((createZip files disk now).success = true →
       (createZip files disk now).status = 200 ∧
       (createZip files disk now).filename ≠ none) := by
  refine ⟨?_, ?_, ?_, ?_, ?_, ?_, ?_, ?_, ?_, ?_, ?_, ?_, ?_, ?_, ?_, ?_,
    ?_, ?_⟩
  · unfold getArticle
    dsimp only
    split
    · exact ⟨rfl, by simp [mkResp], by simp [mkResp]⟩
    · exact ⟨rfl, by simp [mkRespData], by simp [mkRespData]⟩
  · unfold updateReview
    cases storeA.find? (fun a => a.id == aid) with
    | none => exact ⟨rfl, by simp [mkResp], by simp [mkResp]⟩
    | some article => exact ⟨rfl, by simp [mkResp], by simp [mkResp]⟩
  · unfold deleteJournal
    cases journals.find? (fun j => j.id == jid) with
    | none => exact ⟨rfl, by simp [mkResp], by simp [mkResp]⟩
    | some journalData => exact ⟨rfl, by simp [mkResp], by simp [mkResp]⟩
  · unfold getReviewArticles
    dsimp only
    split
    · exact ⟨rfl, by simp [mkResp], by simp [mkResp]⟩
    · exact ⟨rfl, by simp [mkRespData], by simp [mkRespData]⟩
  · unfold deleteReviewer
    cases reviewers.find? (fun r => r.id == rid) with
    | none => exact ⟨rfl, by simp [mkResp], by simp [mkResp]⟩
    | some reviewerData => exact ⟨rfl, by simp [mkResp], by simp [mkResp]⟩
  · unfold removeEditor
    cases journals.find? (fun j => j.id == jid) with
    | none => exact ⟨rfl, by simp [mkResp], by simp [mkResp]⟩
    | some journal => exact ⟨rfl, by simp [mkResp], by simp [mkResp]⟩
  · unfold addEditor
    cases auths.find? (fun u => u.email == body.email) with
    | some u => exact ⟨rfl, by simp [mkResp], by simp [mkResp]⟩
    | none =>
      cases auths.find? (fun u => u.phoneNumber == body.phoneNumber) with
      | some u => exact ⟨rfl, by simp [mkResp], by simp [mkResp]⟩
      | none => exact ⟨rfl, by simp [mkRespData], by simp [mkRespData]⟩
  · intro r hr
    cases x with
    | some rdata =>
      injection hr with hr
      subst hr
      exact ⟨rfl, by simp [mkResp], by simp [mkResp]⟩
    | none =>
      cases saveRes with
      | error e2 =>
        injection hr with hr
        subst hr
        exact ⟨rfl, by simp [mkRespErr], by simp [mkRespErr]⟩
      | ok saved =>
        cases authUpdRes with
        | error e2 =>
          injection hr with hr
          subst hr
          exact ⟨rfl, by simp [mkRespErr], by simp [mkRespErr]⟩
        | ok a =>
          injection hr with hr
          subst hr
          exact ⟨rfl, by simp [mkRespData], by simp [mkRespData]⟩
  · intro r hr
    cases sendRes with
    | error e2 =>
      injection hr with hr
      subst hr
      exact ⟨rfl, by simp [mkRespErr], by simp [mkRespErr]⟩
    | ok info =>
      cases info with
      | some i =>
        injection hr with hr
        subst hr
        exact ⟨rfl, by simp [mkResp], by simp [mkResp]⟩
      | none =>
        injection hr with hr
        subst hr
        exact ⟨rfl, by simp [mkResp], by simp [mkResp]⟩
  · unfold addArticle
    cases parseKeywords with
    | error e2 => exact ⟨rfl, by simp [mkRespErr], by simp [mkRespErr]⟩
    | ok kw =>
      cases parseAuthors with
      | error e2 => exact ⟨rfl, by simp [mkRespErr], by simp [mkRespErr]⟩
      | ok au =>
        cases saveArticleRes with
        | error e2 => exact ⟨rfl, by simp [mkRespErr], by simp [mkRespErr]⟩
        | ok saved => exact ⟨rfl, by simp [mkRespData], by simp [mkRespData]⟩
  · unfold addJournal
    cases saveJournalRes with
    | error e2 => exact ⟨rfl, by simp [mkRespErr], by simp [mkRespErr]⟩
    | ok saved => exact ⟨rfl, by simp [mkRespData], by simp [mkRespData]⟩
  · unfold getJournalList
    exact ⟨rfl, by simp [mkRespData], by simp [mkRespData]⟩
  · unfold getArticleList
    dsimp only
    split
    · exact ⟨rfl, by simp [mkResp], by simp [mkResp]⟩
    · exact ⟨rfl, by simp [mkRespData], by simp [mkRespData]⟩
  · unfold updateArticle
    cases storeA.find? (fun a => a.id == bodyA.id) with
    | none => exact ⟨rfl, by simp [mkResp], by simp [mkResp]⟩
    | some found => exact ⟨rfl, by simp [mkRespData], by simp [mkRespData]⟩
  · unfold addBulkReviewer
    cases insertRes with
    | error e2 => exact ⟨rfl, by simp [mkRespErr], by simp [mkRespErr]⟩
    | ok inserted => exact ⟨rfl, by simp [mkRespData], by simp [mkRespData]⟩
  · unfold getReviewerList
    exact ⟨rfl, by simp [mkRespData], by simp [mkRespData]⟩
  · intro hfail
    unfold createZip at hfail ⊢
    by_cases hall : (files.all fun f => disk f) = true
    · rw [if_pos hall] at hfail
      exact absurd hfail (by simp)
    · rw [if_neg hall] at hfail ⊢
      exact ⟨rfl, by simp [mkRespErr], by simp [mkRespErr]⟩
  · intro hok
    unfold createZip at hok ⊢
    by_cases hall : (files.all fun f => disk f) = true
    · rw [if_pos hall] at hok ⊢
      exact ⟨rfl, by simp⟩
    · rw [if_neg hall] at hok
      exact absurd hok (by simp [mkRespErr])

/-- C8 witness: `addEditor_credentials_spec` on the concrete draws
`123456789012345 / 2^53` (whose base-36 expansion has 27 fractional
digits) and `2^52 / 2^53` for the username suffix. -/
theorem addEditor_credentials_spec_witness :
    123456789012345 < 2 ^ 53 ∧ 2 ^ 52 < 2 ^ 53 ∧
    10 ≤ (base36FracDigits 27 123456789012345).length ∧
    ((genPassword 123456789012345).length = 10 ∧
     isUpperAlnumStr (genPassword 123456789012345) = true ∧
     genUserName "Alice" (2 ^ 52) =
       jsToLowerCase "Alice" ++ toString (2 ^ 52 * 1000 / 2 ^ 53) ∧
     2 ^ 52 * 1000 / 2 ^ 53 < 1000) :=
  ⟨by norm_num, by norm_num, by decide,
   addEditor_credentials_spec 123456789012345 (2 ^ 52) "Alice"
     (by norm_num) (by norm_num) (by decide)⟩

end JSBackend
